import Mathlib

/-!
Shallow embedding of the measurement pipeline of `mj-the-estimator`
(`backend/services/room_calculator.py` and
`backend/services/measurement_processor.py`), with theorems checking the
natural-language specification against the code.

Numbers are modelled by `ℚ` (idealising IEEE doubles; every literal that the
source manipulates is a small decimal, exactly representable).  A Python value
that may sit in one of the loosely-typed dict slots is modelled by `PyVal`:
a number, `None`, or a non-numeric value (e.g. a string such as `"Sloped"`)
on which `float()` and arithmetic raise `TypeError`/`ValueError`.  A raised
exception is modelled by `Option.none` flowing out of the function that the
`try:` block embeds; the enclosing `except:` handler is the `Option.getD`
at the wrapper.
-/

namespace MJEstimator

/-- A Python scalar found in the loosely typed measurement dicts:
a float/int (`num`), `None` (`pynone`), or any other non-numeric value
(`nonNum`), carrying only its truthiness.  JSON booleans are mapped to
`num 0 / num 1`, which matches Python arithmetic/comparison semantics
(`True == 1`). -/
inductive PyVal where
  | num (q : ℚ)
  | pynone
  | nonNum (truthy : Bool)
deriving DecidableEq, Repr

/-- Python truthiness of a `PyVal` (`0`, `0.0` and `None` are falsy). -/
def PyVal.truthy : PyVal → Bool
  | .num q => q != 0
  | .pynone => false
  | .nonNum t => t

/-- Model of `float(v)` and use-as-number: succeeds only on numbers; on `None` or a
non-numeric value the corresponding Python operation raises. -/
def PyVal.toFloat : PyVal → Option ℚ
  | .num q => some q
  | .pynone => none
  | .nonNum _ => none

/-- Python `a * b` on two dict slots (raises unless both are numeric). -/
def pyMul (a b : PyVal) : Option ℚ := do
  let x ← a.toFloat
  let y ← b.toFloat
  pure (x * y)

/-- Python `a < q` on a dict slot against a numeric literal. -/
def pyLtQ (a : PyVal) (q : ℚ) : Option Bool := do
  let x ← a.toFloat
  pure (decide (x < q))

/-- Python `a > q` on a dict slot against a numeric literal. -/
def pyGtQ (a : PyVal) (q : ℚ) : Option Bool := do
  let x ← a.toFloat
  pure (decide (x > q))

/-- Python `abs(a - b) < c` on two dict slots (raises unless both numeric). -/
def pyAbsDiffLt (a b : PyVal) (c : ℚ) : Option Bool := do
  let x ← a.toFloat
  let y ← b.toFloat
  pure (decide (|x - y| < c))

/-- Python `round(x, 2)`.  Modelled with `round : ℚ → ℤ`; exact on every
value whose hundredths are exact, which covers all inputs used in the
theorems below (Python's float/banker corner cases are not exercised). -/
def round2 (q : ℚ) : ℚ := (round (q * 100) : ℤ) / 100

/-- Decimal rendering of a number inside a Python f-string; a definite
model of `f"{x}"` for the finite decimals the code manipulates. -/
def fmtQ (q : ℚ) : String :=
  if q.den = 1 then toString q.num ++ ".0"
  else if (q * 10).den = 1 then
    (if q < 0 then "-" else "") ++ toString ((q * 10).num.natAbs / 10) ++ "." ++
      toString ((q * 10).num.natAbs % 10)
  else toString q.num ++ "/" ++ toString q.den

/-- Python `str.lower()` (character-wise, structural). -/
def pyLower (s : String) : String := String.mk (s.data.map Char.toLower)

/-- Python `str.strip()` (drop whitespace at both ends, structural). -/
def pyStrip (s : String) : String :=
  String.mk (((s.data.dropWhile Char.isWhitespace).reverse.dropWhile
    Char.isWhitespace).reverse)

/-! ## Data model (intermediate room records) -/

/-- The `raw_dimensions` dict of an intermediate room.  Each field is
`none` when the key is absent; a present key holds an arbitrary `PyVal`. -/
structure RawDims where
  length : Option PyVal := none
  width : Option PyVal := none
  height : Option PyVal := none
  area : Option PyVal := none
  perimeter : Option PyVal := none
deriving DecidableEq, Repr

/-- An entry of a room's `openings` list. -/
structure OpeningData where
  otype : Option String := none
  owidth : Option PyVal := none
  oheight : Option PyVal := none
deriving DecidableEq, Repr

/-- An intermediate room record (`RawRoom` of the spec).  `none` fields
model absent dict keys. -/
structure RoomData where
  floor : Option String := none
  name : Option String := none
  raw_dimensions : Option RawDims := none
  openings : Option (List OpeningData) := none
  source_confidence : Option ℚ := none
deriving DecidableEq, Repr

/-- A processed opening as emitted by the calculator. -/
structure ProcessedOpening where
  otype : String
  size : String
deriving DecidableEq, Repr

/-- The `measurements` dict of a calculated room. -/
structure Measurements where
  height : ℚ
  wall_area_sqft : ℚ
  ceiling_area_sqft : ℚ
  floor_area_sqft : ℚ
  walls_and_ceiling_area_sqft : ℚ
  flooring_area_sy : ℚ
  ceiling_perimeter_lf : ℚ
  floor_perimeter_lf : ℚ
  openings : List ProcessedOpening
deriving DecidableEq, Repr

/-- A calculated room (`CalculatedRoom` of the spec). -/
structure CalculatedRoom where
  name : String
  measurements : Measurements
deriving DecidableEq, Repr

/-- A floor grouping of the final output. -/
structure Location where
  location : String
  rooms : List CalculatedRoom
deriving DecidableEq, Repr

/-- The intermediate format handed from the extractors to the engine
(`{"rooms": [...]}`). -/
structure Intermediate where
  rooms : List RoomData
deriving DecidableEq, Repr

/-! ## RoomCalculator (room_calculator.py lines 10-137) -/

/-- Model of `OPENING_TYPES` default width for a known opening type. -/
def openingDefaultWidth (t : String) : ℚ :=
  if t = "door" then 3 else if t = "window" then 4 else 6

/-- Model of `OPENING_TYPES` default height for a known opening type. -/
def openingDefaultHeight (t : String) : ℚ :=
  if t = "door" then 34/5 else if t = "window" then 3 else 8

/-- Whether a type string is a key of `OPENING_TYPES`. -/
def knownOpeningType (t : String) : Bool :=
  t = "door" || t = "window" || t = "open_wall"

/-- Result of processing a single opening: its contribution to
`total_opening_area`, to the perimeter reduction, and the emitted record. -/
structure OpeningResult where
  areaSub : ℚ
  perimSub : ℚ
  emitted : ProcessedOpening
deriving DecidableEq, Repr

/-- The body of the per-opening `try:` block (lines 47-85): `none` models
the inner exception, which makes the loop `continue` past the opening. -/
def processOpening (height : ℚ) (o : OpeningData) : Option OpeningResult := do
  let otype := o.otype.getD "door"
  let defW := if knownOpeningType otype then openingDefaultWidth otype else 3
  let defH := if knownOpeningType otype then openingDefaultHeight otype else 34/5
  let ow ← (o.owidth.getD (.num defW)).toFloat
  let oh ← (o.oheight.getD (.num defH)).toFloat
  if otype = "open_wall" then
    pure { areaSub := ow * height, perimSub := ow,
           emitted := { otype := otype, size := fmtQ ow ++ "\x27 wide opening" } }
  else
    pure { areaSub := ow * oh, perimSub := 0,
           emitted := { otype := otype,
                        size := fmtQ ow ++ "\x27 X " ++ fmtQ oh ++ "\x27" ++
                          (if otype = "window" then " window" else "") } }

/-- State threaded through the openings loop:
(`total_opening_area`, `adjusted_perimeter`, `processed_openings`). -/
structure OpeningsAcc where
  totalArea : ℚ
  adjPerimeter : ℚ
  processed : List ProcessedOpening
deriving DecidableEq, Repr

/-- One iteration of the openings `for` loop. -/
def openingsStep (height : ℚ) (acc : OpeningsAcc) (o : OpeningData) : OpeningsAcc :=
  match processOpening height o with
  | none => acc
  | some r =>
    { totalArea := acc.totalArea + r.areaSub,
      adjPerimeter := acc.adjPerimeter - r.perimSub,
      processed := acc.processed ++ [r.emitted] }

/-- The openings loop (lines 45-91). -/
def foldOpenings (height : ℚ) (perimeter : ℚ) (openings : List OpeningData) : OpeningsAcc :=
  openings.foldl (openingsStep height) { totalArea := 0, adjPerimeter := perimeter, processed := [] }

/-- Model of `dims.get("area") or (length * width)` (line 34); `none` models the
outer exception (the non-numeric value would make a later arithmetic step
raise before the function returns). -/
def pyFloorArea (dims : RawDims) : Option ℚ := do
  let areaV := dims.area.getD .pynone
  let lengthV ← dims.length
  let widthV ← dims.width
  if areaV.truthy then areaV.toFloat else pyMul lengthV widthV

/-- Model of `dims.get("perimeter") or (2 * (length + width))` (line 38). -/
def pyPerimeter (dims : RawDims) : Option ℚ := do
  let perimV := dims.perimeter.getD .pynone
  let lengthV ← dims.length
  let widthV ← dims.width
  if perimV.truthy then perimV.toFloat
  else do
    let l ← lengthV.toFloat
    let w ← widthV.toFloat
    pure (2 * (l + w))

/-- The values computed by the `try:` body of
`calculate_room_measurements` before the result dict is assembled. -/
structure CalcVals where
  roomName : String
  height : ℚ
  floorArea : ℚ
  wallArea : ℚ
  perimeterF : ℚ
  processed : List ProcessedOpening
deriving DecidableEq, Repr

/-- The `try:` body of `calculate_room_measurements` (lines 23-100);
`none` models an exception reaching the outer `except:`. -/
def calcVals (room : RoomData) : Option CalcVals := do
  let dims ← room.raw_dimensions
  let roomName ← room.name
  let openings := room.openings.getD []
  let _ ← dims.length
  let _ ← dims.width
  let heightV ← dims.height
  let floorArea ← pyFloorArea dims
  let perimeter ← pyPerimeter dims
  let height ← heightV.toFloat
  let acc := foldOpenings height perimeter openings
  pure { roomName := roomName, height := height, floorArea := floorArea,
         wallArea := perimeter * height - acc.totalArea,
         perimeterF := max acc.adjPerimeter 0,
         processed := acc.processed }

/-- Assembly of the returned dict (lines 102-115). -/
def assembleRoom (v : CalcVals) : CalculatedRoom :=
  { name := v.roomName,
    measurements :=
      { height := round2 v.height,
        wall_area_sqft := round2 v.wallArea,
        ceiling_area_sqft := round2 v.floorArea,
        floor_area_sqft := round2 v.floorArea,
        walls_and_ceiling_area_sqft := round2 (v.wallArea + v.floorArea),
        flooring_area_sy := round2 (v.floorArea / 9),
        ceiling_perimeter_lf := round2 v.perimeterF,
        floor_perimeter_lf := round2 v.perimeterF,
        openings := v.processed } }

/-- Model of `_get_fallback_room_measurements` (lines 121-137). -/
def fallbackRoomMeasurements (roomName : String) : CalculatedRoom :=
  { name := roomName,
    measurements :=
      { height := 8, wall_area_sqft := 320, ceiling_area_sqft := 100,
        floor_area_sqft := 100, walls_and_ceiling_area_sqft := 420,
        flooring_area_sy := 1111/100, ceiling_perimeter_lf := 40,
        floor_perimeter_lf := 40, openings := [] } }

/-- Model of `RoomCalculator.calculate_room_measurements` (lines 20-119): the
`try:` body, with the `except:` handler returning the canned fallback
tagged `room_data.get("name", "Unknown")`. -/
def calculate_room_measurements (room : RoomData) : CalculatedRoom :=
  match calcVals room with
  | some v => assembleRoom v
  | none => fallbackRoomMeasurements (room.name.getD "Unknown")

/-! ## String search helpers

The regexes the pipeline uses are of two shapes only: a literal substring
(Python `pat in s` / `re.search` on a literal) and `A.*B` (where `.` does
not cross a newline).  Both are implemented directly on character lists. -/

/-- Substring occurrence (`pat in s` over the character lists). -/
def subSearch (pat : List Char) : List Char → Bool
  | [] => decide (pat = [])
  | c :: rest => pat.isPrefixOf (c :: rest) || subSearch pat rest

/-- Model of `containsSub s pat` is Python `pat in s`. -/
def containsSub (s pat : String) : Bool := subSearch pat.data s.data

/-- Model of `b` occurs at a position reachable without crossing a newline. -/
def noNlThen (b : List Char) : List Char → Bool
  | [] => decide (b = [])
  | c :: rest => b.isPrefixOf (c :: rest) || (c != '\n' && noNlThen b rest)

/-- Match of the regex `A.*B` somewhere in the list (with `.` not
matching a newline, as in Python without `re.DOTALL`). -/
def dotStarSearch (a b : List Char) : List Char → Bool
  | [] => a.isPrefixOf ([] : List Char) && noNlThen b []
  | c :: rest =>
    (a.isPrefixOf (c :: rest) && noNlThen b (List.drop a.length (c :: rest))) ||
      dotStarSearch a b rest

/-- Model of `dotStarSub s a b` is Python `re.search(a + ".*" + b, s)`. -/
def dotStarSub (s a b : String) : Bool := dotStarSearch a.data b.data s.data

/-! ## Opening estimator (room_calculator.py lines 139-265) -/

/-- An opening literal such as `{"type": t, "width": w, "height": h}`. -/
def mkOpening (t : String) (w h : ℚ) : OpeningData :=
  { otype := some t, owidth := some (.num w), oheight := some (.num h) }

/-- Model of `_estimate_windows_by_size` (lines 231-265); `room_area` is whatever
Python value reached it, so each comparison can raise. -/
def estimateWindowsBySize (room_area : PyVal) (is_living_area : Bool) :
    Option (List OpeningData) := do
  let c1 ← pyLtQ room_area 80
  if c1 then pure [mkOpening "window" 3 3]
  else do
    let c2 ← pyLtQ room_area 150
    if c2 then pure [mkOpening "window" 4 (7/2)]
    else do
      let c3 ← pyLtQ room_area 250
      if c3 then
        if is_living_area then pure [mkOpening "window" 6 4]
        else pure [mkOpening "window" 4 (7/2), mkOpening "window" 3 3]
      else
        if is_living_area then pure [mkOpening "window" 6 4, mkOpening "window" 4 (7/2)]
        else pure [mkOpening "window" 4 (7/2), mkOpening "window" 4 (7/2),
                   mkOpening "window" 3 3]

/-- The fixed adjacency table of `_detect_connected_space`. -/
def connectedPatterns : List (String × String) :=
  [("kitchen", "living"), ("kitchen", "dining"), ("living", "dining"),
   ("kitchen", "family"), ("dining", "family")]

/-- Model of `_detect_connected_space` (lines 203-229). -/
def detectConnectedSpace (room_name_lower : String) (all_rooms : List RoomData) : Bool :=
  let all_room_names := all_rooms.map (fun r => pyLower (r.name.getD ""))
  connectedPatterns.any (fun p =>
    if containsSub room_name_lower p.1 then
      all_room_names.any (fun o => containsSub o p.2)
    else if containsSub room_name_lower p.2 then
      all_room_names.any (fun o => containsSub o p.1)
    else false)

/-- Model of `estimate_openings_from_room_type` (lines 139-201). -/
def estimateOpenings (room_name : String) (room_area : PyVal)
    (all_rooms : List RoomData) : Option (List OpeningData) :=
  let n := pyLower room_name
  if ["cabinet", "storage", "shelf", "rack", "fixture", "pantry"].any
      (fun k => containsSub n k) then
    pure []
  else
    let has_open_wall := detectConnectedSpace n all_rooms
    if ["bedroom", "office", "study"].any (fun k => containsSub n k) then do
      let ws ← estimateWindowsBySize room_area false
      pure (mkOpening "door" 3 (34/5) :: ws)
    else if containsSub n "bathroom" then do
      let c ← pyGtQ room_area 50
      pure (mkOpening "door" (5/2) (34/5) ::
        (if c then [mkOpening "window" 2 (5/2)] else []))
    else if containsSub n "closet" then
      pure [mkOpening "door" (5/2) (34/5)]
    else if ["living", "kitchen", "dining", "family"].any (fun k => containsSub n k) then do
      let first := if has_open_wall then mkOpening "open_wall" 8 8
        else mkOpening "door" 4 (34/5)
      let ws ← estimateWindowsBySize room_area true
      pure (first :: ws)
    else if containsSub n "hall" || containsSub n "corridor" then do
      let c ← pyGtQ room_area 80
      if c then estimateWindowsBySize room_area false else pure []
    else do
      let ws ← estimateWindowsBySize room_area false
      pure (mkOpening "door" 3 (34/5) :: ws)

/-! ## Structure transformer and engine (room_calculator.py lines 267-386) -/

/-- Model of `_get_floor_sort_key` (lines 315-329). -/
def floorSortKey (floor_name : String) : ℕ :=
  let f := pyLower floor_name
  if containsSub f "basement" || containsSub f "lower" then 0
  else if containsSub f "ground" || containsSub f "1st" then 1
  else if containsSub f "2nd" then 2
  else if containsSub f "3rd" then 3
  else 10

/-- Insertion into the `locations` dict: append the room to the floor's
entry, creating the entry at the end on first sight (Python dicts keep
insertion order). -/
def locsInsert (locs : List (String × List CalculatedRoom)) (k : String)
    (r : CalculatedRoom) : List (String × List CalculatedRoom) :=
  match locs with
  | [] => [(k, [r])]
  | (k2, g) :: rest =>
    if k2 = k then (k2, g ++ [r]) :: rest else (k2, g) :: locsInsert rest k r

/-- One iteration of the transformer loop (lines 279-302): opening
estimation when the room arrived without openings, then calculation.
`none` models an exception escaping to the transformer's `except:`. -/
def transformRoomStep (rooms_data : List RoomData) (room : RoomData) :
    Option (String × CalculatedRoom) := do
  let floor := room.floor.getD "1st Floor"
  let room2 ←
    if (room.openings.getD []).isEmpty then do
      let dims ← room.raw_dimensions
      let areaV := dims.area.getD (.num 0)
      let room_area ←
        if areaV.truthy then pure areaV
        else do
          let l ← dims.length
          let w ← dims.width
          let p ← pyMul l w
          pure (PyVal.num p)
      let nm ← room.name
      let est ← estimateOpenings nm room_area rooms_data
      pure { room with openings := some est }
    else pure room
  pure (floor, calculate_room_measurements room2)

/-- The transformer's `for` loop threading the `locations` dict. -/
def transformLoop (rooms_data : List RoomData) :
    List RoomData → List (String × List CalculatedRoom) →
      Option (List (String × List CalculatedRoom))
  | [], locs => some locs
  | r :: rest, locs => do
    let fc ← transformRoomStep rooms_data r
    transformLoop rooms_data rest (locsInsert locs fc.1 fc.2)

/-- The `try:` body of `transform_to_final_structure` (lines 273-309):
group, calculate, then sort by floor rank (Python's stable sort is
modelled by insertion sort on the rank preorder). -/
def transformCore (d : Intermediate) : Option (List Location) := do
  let locs ← transformLoop d.rooms d.rooms []
  let result := locs.map (fun kg => Location.mk kg.1 kg.2)
  pure (result.insertionSort (fun a b => floorSortKey a.location ≤ floorSortKey b.location))

/-- Model of `DataStructureTransformer._get_fallback_structure` (lines 331-356). -/
def fallbackStructure : List Location :=
  [{ location := "1st Floor",
     rooms := [{ name := "Living Room",
                 measurements :=
                   { height := 9, wall_area_sqft := 42673/100,
                     ceiling_area_sqft := 19932/100, floor_area_sqft := 19932/100,
                     walls_and_ceiling_area_sqft := 62605/100,
                     flooring_area_sy := 2215/100,
                     ceiling_perimeter_lf := 5883/100,
                     floor_perimeter_lf := 4348/100,
                     openings := [{ otype := "door", size := "3\x27 X 6\x278\x22" }] } }] }]

/-- Model of `transform_to_final_structure` (lines 270-313): the `try:` body with
the `except:` handler returning the canned structure. -/
def transform_to_final_structure (d : Intermediate) : List Location :=
  (transformCore d).getD fallbackStructure

/-- Model of `MeasurementCalculationEngine.process_to_final_format`
(lines 365-383). -/
def process_to_final_format (d : Intermediate) : List Location :=
  let fs := transform_to_final_structure d
  if fs.isEmpty || fs.all (fun loc => loc.rooms.isEmpty) then fallbackStructure
  else fs

/-! ## Deduplicator (measurement_processor.py lines 608-701) -/

/-- Model of `room.get("floor", "Unknown")`. -/
def floorD (r : RoomData) : String := r.floor.getD "Unknown"

/-- Model of `room.get("name", "Unknown")`. -/
def nameD (r : RoomData) : String := r.name.getD "Unknown"

/-- The noise-name filter of the first pass (lines 630-644).  Patterns
are literal substrings except the three `A.*B` regexes; in the pattern
`kitchen cabinets (24")` the parentheses are a regex group, so the text
matched is `kitchen cabinets 24"`. -/
def dedupSkipName (name : String) : Bool :=
  let n := pyLower name
  containsSub n "object count" || containsSub n ("kitchen cabinets 24" ++ "\x22") ||
    containsSub n "plan attributes" || containsSub n "ground surface" ||
    containsSub n "volume" || containsSub n "room attributes" ||
    dotStarSub n "above grade" "area" || dotStarSub n "below grade" "area" ||
    dotStarSub n "total" "area"

/-- Model of `area < 1 and length * width < 1` (line 625) with Python
short-circuiting; `none` models a `TypeError` on a non-numeric slot. -/
def dedupTiny (dims : RawDims) : Option Bool := do
  let c1 ← pyLtQ (dims.area.getD (.num 0)) 1
  if c1 then do
    let p ← pyMul (dims.length.getD (.num 0)) (dims.width.getD (.num 0))
    pure (decide (p < 1))
  else pure false

/-- The near-identical-dimensions test (lines 655-657), short-circuited. -/
def nearIdentical (dims e : RawDims) : Option Bool := do
  let c1 ← pyAbsDiffLt (dims.length.getD (.num 0)) (e.length.getD (.num 0)) (1/10)
  if c1 then do
    let c2 ← pyAbsDiffLt (dims.width.getD (.num 0)) (e.width.getD (.num 0)) (1/10)
    if c2 then pyAbsDiffLt (dims.area.getD (.num 0)) (e.area.getD (.num 0)) (1/10)
    else pure false
  else pure false

/-- The `10x10x8` sentinel test (lines 663-664); `dims.get(k)` defaults
to `None`, which compares unequal to any number. -/
def sentinelDims (dims : RawDims) : Bool :=
  decide (dims.length.getD .pynone = PyVal.num 10) &&
    decide (dims.width.getD .pynone = PyVal.num 10) &&
    decide (dims.height.getD .pynone = PyVal.num 8)

/-- The scan over already-kept rooms (lines 647-667): `true` marks the
current row a duplicate.  The sentinel test runs only inside the branch
where an existing row matches the current `(floor, name)`. -/
def dupScan (floor name : String) (dims : RawDims) :
    List RoomData → Option Bool
  | [] => pure false
  | e :: rest =>
    if e.floor = some floor ∧ e.name = some name then do
      let near ← nearIdentical dims (e.raw_dimensions.getD {})
      if near then pure true
      else if sentinelDims dims then pure true
      else dupScan floor name dims rest
    else dupScan floor name dims rest

/-- One iteration of the first pass (lines 616-670). -/
def firstPassStep (valid : List RoomData) (room : RoomData) :
    Option (List RoomData) := do
  let tiny ← dedupTiny (room.raw_dimensions.getD {})
  if tiny then pure valid
  else if dedupSkipName (nameD room) then pure valid
  else do
    let dup ← dupScan (floorD room) (nameD room) (room.raw_dimensions.getD {}) valid
    if dup then pure valid else pure (valid ++ [room])

/-- The first pass, threading `valid_rooms`. -/
def dedupFirstPassGo (valid : List RoomData) : List RoomData → Option (List RoomData)
  | [] => pure valid
  | r :: rest => do
    let v2 ← firstPassStep valid r
    dedupFirstPassGo v2 rest

/-- First pass from the empty accumulator. -/
def dedupFirstPass (rooms : List RoomData) : Option (List RoomData) :=
  dedupFirstPassGo [] rooms

/-- The grouping key `f"{floor}:{name}"` (line 680). -/
def keyOf (r : RoomData) : String := floorD r ++ ":" ++ nameD r

/-- Append a room to its group, creating the group at the end on first
sight (Python dict insertion order). -/
def groupsInsert (gs : List (String × List RoomData)) (k : String) (r : RoomData) :
    List (String × List RoomData) :=
  match gs with
  | [] => [(k, [r])]
  | (k2, g) :: rest =>
    if k2 = k then (k2, g ++ [r]) :: rest else (k2, g) :: groupsInsert rest k r

/-- Model of `room_groups` built over the surviving rooms (lines 676-684). -/
def buildGroups (valid : List RoomData) : List (String × List RoomData) :=
  valid.foldl (fun gs r => groupsInsert gs (keyOf r) r) []

/-- Model of `room["name"] = f"{original_name} #{i}"` (lines 690-693). -/
def renameRoom (r : RoomData) (i : ℕ) : RoomData :=
  { r with name := some (nameD r ++ " #" ++ toString i) }

/-- Model of `enumerate(rooms_in_group, 1)` applied to the renaming. -/
def numberFrom (i : ℕ) : List RoomData → List RoomData
  | [] => []
  | r :: rest => renameRoom r i :: numberFrom (i + 1) rest

/-- Emission of one group (lines 687-698). -/
def renderGroup (g : List RoomData) : List RoomData :=
  if 1 < g.length then numberFrom 1 g else g

/-- The second pass: group by `floor:name`, then number groups of two or
more. -/
def dedupSecondPass (valid : List RoomData) : List RoomData :=
  (buildGroups valid).foldl (fun out kg => out ++ renderGroup kg.2) []

/-- Model of `CSVTableProcessor._deduplicate_and_filter_rooms` (lines 608-701);
`none` models an uncaught exception (the function has no `try:`). -/
def deduplicate_and_filter_rooms (rooms : List RoomData) : Option (List RoomData) :=
  if rooms.isEmpty then some rooms
  else do
    let valid ← dedupFirstPass rooms
    pure (dedupSecondPass valid)

/-! ## Extractor fallbacks and the JSON extractor
(measurement_processor.py lines 90-163, 703-726, 762-806, 808-839) -/

/-- Model of `CSVTableProcessor._get_fallback_rooms` (lines 703-726). -/
def csvFallbackRooms : List RoomData :=
  [{ floor := some "1st Floor", name := some "Living Room",
     raw_dimensions := some { length := some (.num 15), width := some (.num 12),
                              height := some (.num 8), area := some (.num 180),
                              perimeter := some .pynone },
     openings := some [], source_confidence := some (1/2) },
   { floor := some "1st Floor", name := some "Kitchen",
     raw_dimensions := some { length := some (.num 12), width := some (.num 10),
                              height := some (.num 8), area := some (.num 120),
                              perimeter := some .pynone },
     openings := some [], source_confidence := some (1/2) }]

/-- The tail of `CSVTableProcessor.extract_room_data` /
`_extract_room_data_batch` after the line scan (lines 155-163, 264-272):
fallback when the scan found nothing, then deduplication.  `scanned` is
the room list the per-line loop collected. -/
def csvExtractPost (scanned : List RoomData) : Option (List RoomData) :=
  deduplicate_and_filter_rooms (if scanned.isEmpty then csvFallbackRooms else scanned)

/-- Model of `ImageOCRProcessor._get_fallback_ocr_rooms` (lines 793-806). -/
def ocrFallbackRooms : List RoomData :=
  [{ floor := some "1st Floor", name := some "Room",
     raw_dimensions := some { length := some (.num 12), width := some (.num 10),
                              height := some (.num 8), area := some (.num 120),
                              perimeter := some .pynone },
     openings := some [], source_confidence := some (1/2) }]

/-- The tail of `ImageOCRProcessor.extract_room_data` after the line scan
(lines 762-767): no deduplication, fallback when nothing matched. -/
def ocrExtractPost (scanned : List RoomData) : List RoomData :=
  if scanned.isEmpty then ocrFallbackRooms else scanned

/-- A parsed Python/JSON value, as produced by `json.loads`. -/
inductive PyJson where
  | null
  | bool (b : Bool)
  | num (q : ℚ)
  | str (s : String)
  | arr (items : List PyJson)
  | obj (fields : List (String × PyJson))

/-- Python-dict lookup over parsed JSON fields (duplicate keys: the last
occurrence wins, as in `json.loads`). -/
def lookupLast (fields : List (String × PyJson)) (k : String) : Option PyJson :=
  (fields.reverse.find? (fun f => f.1 == k)).map Prod.snd

/-- A JSON value stored into a `raw_dimensions` slot.  Booleans become
`0/1` (Python `True == 1`); strings, arrays and objects are non-numeric
for the arithmetic the calculator later applies (no `float()` call ever
touches these slots). -/
def jsonValToPyVal : PyJson → PyVal
  | .null => .pynone
  | .bool b => .num (if b then 1 else 0)
  | .num q => .num q
  | .str s => .nonNum (s ≠ "")
  | .arr items => .nonNum (!items.isEmpty)
  | .obj fields => .nonNum (!fields.isEmpty)

/-- Case-insensitive character comparison against a lowercase letter. -/
def lcEq (c d : Char) : Bool := c.toLower = d

/-- The prefix regex `^(room\s*\d+\s*[:-]?\s*)` of `_clean_room_name`:
returns the rest after the matched prefix, or `none` when it does not
match. -/
def matchRoomNum (cs : List Char) : Option (List Char) :=
  match cs with
  | r :: o :: o2 :: m :: rest =>
    if lcEq r 'r' && lcEq o 'o' && lcEq o2 'o' && lcEq m 'm' then
      let rest1 := rest.dropWhile Char.isWhitespace
      let digits := rest1.takeWhile Char.isDigit
      if digits.isEmpty then none
      else
        let rest2 := (rest1.dropWhile Char.isDigit).dropWhile Char.isWhitespace
        let rest3 :=
          match rest2 with
          | c :: t => if c = ':' ∨ c = '-' then t else rest2
          | [] => rest2
        some (rest3.dropWhile Char.isWhitespace)
    else none
  | _ => none

/-- Model of `re.sub` of the prefix regex (at most one anchored occurrence). -/
def stripRoomNumTag (cs : List Char) : List Char :=
  (matchRoomNum cs).getD cs

/-- Match of `\s*:\s*sq\s*ft` at the head of the list (case-insensitive),
returning the rest after `ft`. -/
def matchColonSqFt (cs : List Char) : Option (List Char) :=
  match cs.dropWhile Char.isWhitespace with
  | ':' :: t =>
    match t.dropWhile Char.isWhitespace with
    | s :: q :: t2 =>
      if lcEq s 's' && lcEq q 'q' then
        match t2.dropWhile Char.isWhitespace with
        | f :: t3 :: _t4 => if lcEq f 'f' && lcEq t3 't' then some _t4 else none
        | _ => none
      else none
    | _ => none
  | _ => none

/-- Model of `re.sub` of `\s*:\s*sq\s*ft.*$`: delete from the leftmost match to
the end of the string (`$` also matches just before one final newline). -/
def cleanSqFtGo (pre : List Char) : List Char → List Char
  | [] => pre.reverse
  | c :: rest =>
    match matchColonSqFt (c :: rest) with
    | some after =>
      if after.contains '\n' = false then pre.reverse
      else if after.getLast? = some '\n' ∧ after.dropLast.contains '\n' = false then
        pre.reverse ++ ['\n']
      else cleanSqFtGo (c :: pre) rest
    | none => cleanSqFtGo (c :: pre) rest

/-- Python `str.title()` (uppercase each letter after a non-letter,
lowercase the others). -/
def pyTitle : Bool → List Char → List Char
  | _, [] => []
  | prevAlpha, c :: rest =>
    (if c.isAlpha then (if prevAlpha then c.toLower else c.toUpper) else c) ::
      pyTitle c.isAlpha rest

/-- Model of `BaseProcessor._clean_room_name` (lines 57-63). -/
def clean_room_name (name : String) : String :=
  String.mk (pyTitle false (cleanSqFtGo [] (stripRoomNumTag (pyStrip name).data)))

/-- One `measurements` item mapped to a `RawRoom`
(measurement_processor.py lines 819-833).  `none` models the exceptions
the bare `item[...]`/`item.get(...)` accesses raise on malformed items;
non-string `elevation`/`room` values are outside the model. -/
def itemToRoom (item : PyJson) : Option RoomData :=
  match item with
  | .obj fields => do
    let floor ←
      match lookupLast fields "elevation" with
      | none => some "1st Floor"
      | some (.str s) => some s
      | some _ => none
    let rawName ←
      match lookupLast fields "room" with
      | none => some "Room"
      | some (.str s) => some s
      | some _ => none
    let dimsJson ← lookupLast fields "dimensions"
    let dimsFields ←
      match dimsJson with
      | .obj fs => some fs
      | _ => none
    let getDim := fun (k : String) (d : ℚ) =>
      match lookupLast dimsFields k with
      | none => PyVal.num d
      | some v => jsonValToPyVal v
    pure { floor := some floor, name := some (clean_room_name rawName),
           raw_dimensions := some { length := some (getDim "length" 10),
                                    width := some (getDim "width" 10),
                                    height := some (getDim "height" 8),
                                    area := some .pynone,
                                    perimeter := some .pynone },
           openings := some [], source_confidence := some (9/10) }
  | _ => none

/-- The `try:` body of `JSONProcessor.extract_room_data` (lines 811-835),
over the result of `json.loads` (`none` = the parse raised). -/
def jsonExtractCore : Option PyJson → Option (List RoomData)
  | none => none
  | some data =>
    match data with
    | .obj fields =>
      match lookupLast fields "measurements" with
      | none => some []
      | some (.arr items) => items.mapM itemToRoom
      | some (.str s) => if s = "" then some [] else none
      | some (.obj fs) => if fs.isEmpty then some [] else none
      | some _ => none
    | .str s => if containsSub s "measurements" then none else some []
    | .arr items =>
      if items.any (fun x => match x with | .str s => s == "measurements" | _ => false)
      then none else some []
    | _ => none

/-- Model of `JSONProcessor.extract_room_data` (lines 811-839): the `except:`
handler returns `{"rooms": []}` — there is no fallback room set. -/
def jsonExtract (parsed : Option PyJson) : List RoomData :=
  (jsonExtractCore parsed).getD []

/-! ## Batch AI classification (measurement_processor.py lines 274-334)

The remote classifier is the injected capability of the spec: `AIEnv`
carries whether the `ai_service` import succeeds, its `mock_mode` flag,
the outcome of the LLM invocation and the behaviour of `json.loads` on
the extracted slice (the latter two are external collaborators, so they
are arbitrary parameters). -/

/-- A room candidate as used by `_batch_ai_room_classification`
(`candidate["name"]`, `candidate.get("area", 0)`). -/
structure CandidateData where
  name : String
  area : Option PyVal := none
deriving DecidableEq, Repr

/-- The environment of the injected classifier capability. -/
structure AIEnv where
  importOk : Bool
  mock_mode : Bool
  response : Except Unit String
  jsonLoads : String → Except Unit (List Bool)

/-- Python `str.find` (first index of the character, if any). -/
def strFindIdx (cs : List Char) (c : Char) : Option ℕ := cs.findIdx? (· == c)

/-- Python `str.rfind` (last index of the character, if any). -/
def strRFindIdx (cs : List Char) (c : Char) : Option ℕ :=
  (strFindIdx cs.reverse c).map (fun i => cs.length - 1 - i)

/-- Repr of a Python value inside an f-string (definite model). -/
def pyValRepr : PyVal → String
  | .num q => fmtQ q
  | .pynone => "None"
  | .nonNum _ => "?"

/-- One line of the batch prompt (lines 289-293). -/
def candidateLine (i : ℕ) (c : CandidateData) : String :=
  let area := c.area.getD (.num 0)
  let areaInfo := if area.truthy then " (" ++ pyValRepr area ++ " sq ft)" else ""
  toString (i + 1) ++ ". " ++ c.name ++ areaInfo

/-- Model of `candidates_text` (line 295); the surrounding prompt template lives in
`utils/prompts.py` and does not influence control flow. -/
def candidatesText (cands : List CandidateData) : String :=
  String.intercalate "\n" (cands.enum.map (fun p => candidateLine p.1 p.2))

/-- Model of `CSVTableProcessor._batch_ai_room_classification` (lines 274-334). -/
def batch_ai_room_classification (env : AIEnv) (candidates : List CandidateData) :
    List Bool :=
  if candidates.isEmpty then []
  else if !env.importOk then List.replicate candidates.length false
  else if env.mock_mode then List.replicate candidates.length false
  else
    match env.response with
    | .error _ => List.replicate candidates.length false
    | .ok result =>
      let rc := pyStrip result
      match strFindIdx rc.data '[', strRFindIdx rc.data ']' with
      | some si, some ei =>
        match env.jsonLoads (String.mk ((rc.data.take (ei + 1)).drop si)) with
        | .error _ => List.replicate candidates.length false
        | .ok ai_results =>
          if ai_results.length = candidates.length then ai_results
          else List.replicate candidates.length false
      | _, _ => List.replicate candidates.length false

/-- The value `json.loads` hands back along the fully successful path of
the classifier, `none` when any earlier step fails. -/
def aiParsedResult (env : AIEnv) : Option (List Bool) :=
  if !env.importOk || env.mock_mode then none
  else
    match env.response with
    | .error _ => none
    | .ok result =>
      let rc := pyStrip result
      match strFindIdx rc.data '[', strRFindIdx rc.data ']' with
      | some si, some ei =>
        match env.jsonLoads (String.mk ((rc.data.take (ei + 1)).drop si)) with
        | .ok l => some l
        | .error _ => none
      | _, _ => none

/-! ## Concrete inputs used by counterexamples and witnesses -/

/-- A 1 x 1 x 8 room with a 10-foot open wall: total opening area 80
exceeds perimeter x height = 32. -/
def overOpenedRoom : RoomData :=
  { floor := some "1st Floor", name := some "Nook",
    raw_dimensions := some { length := some (.num 1), width := some (.num 1),
                             height := some (.num 8) },
    openings := some [{ otype := some "open_wall", owidth := some (.num 10) }] }

/-- Witness room for C5: 3 x 4 x 10, one 4-foot open wall. -/
def openWallRoom : RoomData :=
  { floor := some "1st Floor", name := some "Den",
    raw_dimensions := some { length := some (.num 3), width := some (.num 4),
                             height := some (.num 10) },
    openings := some [{ otype := some "open_wall", owidth := some (.num 4) }] }

/-- Witness room for C10: a door with a non-numeric width between two
good openings. -/
def roomWithBadOpening : RoomData :=
  { floor := some "1st Floor", name := some "Den",
    raw_dimensions := some { length := some (.num 3), width := some (.num 4),
                             height := some (.num 10) },
    openings := some [{ otype := some "door" },
                      { otype := some "door", owidth := some (.nonNum true) },
                      { otype := some "window", owidth := some (.num 2),
                        oheight := some (.num 3) }] }

/-- The environment of an unavailable classifier (mock mode). -/
def mockModeEnv : AIEnv :=
  { importOk := true, mock_mode := true, response := .error (),
    jsonLoads := fun _ => .error () }

/-- A sentinel-dimension room (10 x 10 x 8) with a name unique in its
input list. -/
def loneSentinelRoom : RoomData :=
  { floor := some "1st Floor", name := some "X",
    raw_dimensions := some { length := some (.num 10), width := some (.num 10),
                             height := some (.num 8), area := some (.num 100),
                             perimeter := some .pynone },
    openings := some [] }

/-- Witness rooms for the numbering claim: two bedrooms sharing
`(floor, name)` with differing dimensions, and a kitchen. -/
def bedRoomA : RoomData :=
  { floor := some "1st Floor", name := some "Bedroom",
    raw_dimensions := some { length := some (.num 20), width := some (.num 10),
                             height := some (.num 8), area := some (.num 200),
                             perimeter := some .pynone },
    openings := some [] }

/-- Second bedroom (differing dimensions, same `(floor, name)`). -/
def bedRoomB : RoomData :=
  { floor := some "1st Floor", name := some "Bedroom",
    raw_dimensions := some { length := some (.num 30), width := some (.num 10),
                             height := some (.num 8), area := some (.num 300),
                             perimeter := some .pynone },
    openings := some [] }

/-- A singleton-group kitchen for the numbering witness. -/
def kitchenRoomW : RoomData :=
  { floor := some "1st Floor", name := some "Kitchen",
    raw_dimensions := some { length := some (.num 12), width := some (.num 10),
                             height := some (.num 8), area := some (.num 120),
                             perimeter := some .pynone },
    openings := some [] }

/-- Lookup in the `room_groups` association structure (`[]` when the key
is absent); specification helper for the grouping dict. -/
def lookupG : List (String × List RoomData) → String → List RoomData
  | [], _ => []
  | (k2, g) :: rest, k => if k2 = k then g else lookupG rest k

/-! ## Helper lemmas -/

theorem lookupG_groupsInsert (gs : List (String × List RoomData)) (k k2 : String)
    (r : RoomData) :
    lookupG (groupsInsert gs k r) k2
      = if k2 = k then lookupG gs k2 ++ [r] else lookupG gs k2 := by
  induction gs with
  | nil =>
    by_cases h : k2 = k
    · subst h; simp [groupsInsert, lookupG]
    · simp only [groupsInsert, lookupG, if_neg h, if_neg (Ne.symm h)]
  | cons e rest ih =>
    obtain ⟨ke, ge⟩ := e
    by_cases h1 : ke = k
    · simp only [groupsInsert, if_pos h1, lookupG]
      by_cases h2 : ke = k2
      · have hk : k2 = k := h2.symm.trans h1
        simp only [if_pos h2, if_pos hk]
      · have hne : ¬(k2 = k) := fun hk => h2 (h1.trans hk.symm)
        simp only [if_neg h2, if_neg hne]
    · simp only [groupsInsert, if_neg h1, lookupG]
      by_cases h2 : ke = k2
      · have hne : ¬(k2 = k) := fun hk => h1 (h2.trans hk)
        simp only [if_pos h2, if_neg hne]
      · simp only [if_neg h2, ih]

theorem mem_keys_groupsInsert {gs : List (String × List RoomData)} {k a : String}
    {r : RoomData} (h : a ∈ (groupsInsert gs k r).map Prod.fst) :
    a ∈ gs.map Prod.fst ∨ a = k := by
  induction gs with
  | nil =>
    simp only [groupsInsert, List.map_cons, List.map_nil, List.mem_cons,
      List.not_mem_nil, or_false] at h
    exact Or.inr h
  | cons e rest ih =>
    obtain ⟨ke, ge⟩ := e
    by_cases h1 : ke = k
    · rw [groupsInsert, if_pos h1] at h
      simp only [List.map_cons, List.mem_cons] at h ⊢
      exact Or.inl h
    · rw [groupsInsert, if_neg h1] at h
      simp only [List.map_cons, List.mem_cons] at h ⊢
      rcases h with h | h
      · exact Or.inl (Or.inl h)
      · rcases ih h with h2 | h2
        · exact Or.inl (Or.inr h2)
        · exact Or.inr h2

theorem nodup_keys_groupsInsert {gs : List (String × List RoomData)} {k : String}
    {r : RoomData} (h : (gs.map Prod.fst).Nodup) :
    ((groupsInsert gs k r).map Prod.fst).Nodup := by
  induction gs with
  | nil => simp [groupsInsert]
  | cons e rest ih =>
    obtain ⟨ke, ge⟩ := e
    simp only [List.map_cons, List.nodup_cons] at h
    obtain ⟨hk1, hk2⟩ := h
    by_cases h1 : ke = k
    · rw [groupsInsert, if_pos h1]
      simp only [List.map_cons, List.nodup_cons]
      exact ⟨hk1, hk2⟩
    · rw [groupsInsert, if_neg h1]
      simp only [List.map_cons, List.nodup_cons]
      refine ⟨fun hm => ?_, ih hk2⟩
      rcases mem_keys_groupsInsert hm with h2 | h2
      · exact hk1 h2
      · exact h1 h2

theorem lookupG_foldl (l : List RoomData) (gs : List (String × List RoomData))
    (k : String) :
    lookupG (l.foldl (fun gs r => groupsInsert gs (keyOf r) r) gs) k
      = lookupG gs k ++ l.filter (fun r => keyOf r == k) := by
  induction l generalizing gs with
  | nil => simp
  | cons r rest ih =>
    rw [List.foldl_cons, ih, lookupG_groupsInsert, List.filter_cons]
    by_cases h : keyOf r = k
    · rw [if_pos h.symm, if_pos (by simpa using h)]
      simp
    · rw [if_neg (fun hk => h hk.symm), if_neg (by simpa using h)]

theorem buildGroups_lookup (valid : List RoomData) (k : String) :
    lookupG (buildGroups valid) k = valid.filter (fun r => keyOf r == k) := by
  have h := lookupG_foldl valid [] k
  simpa [buildGroups, lookupG] using h

theorem buildGroups_keys_nodup (valid : List RoomData) :
    ((buildGroups valid).map Prod.fst).Nodup := by
  have hgen : ∀ (l : List RoomData) (gs : List (String × List RoomData)),
      (gs.map Prod.fst).Nodup →
      ((l.foldl (fun gs r => groupsInsert gs (keyOf r) r) gs).map Prod.fst).Nodup := by
    intro l
    induction l with
    | nil => intro gs h; simpa using h
    | cons r rest ih =>
      intro gs h
      rw [List.foldl_cons]
      exact ih _ (nodup_keys_groupsInsert h)
  exact hgen valid [] (by simp)

theorem mem_of_lookupG_ne_nil (gs : List (String × List RoomData)) (k : String)
    (h : lookupG gs k ≠ []) : (k, lookupG gs k) ∈ gs := by
  induction gs with
  | nil => exact absurd rfl h
  | cons e rest ih =>
    obtain ⟨ke, ge⟩ := e
    by_cases h1 : ke = k
    · subst h1
      rw [lookupG, if_pos rfl] at h ⊢
      exact List.mem_cons_self _ _
    · rw [lookupG, if_neg h1] at h ⊢
      exact List.mem_cons_of_mem _ (ih h)

theorem foldl_append_renderGroup (L : List (String × List RoomData))
    (init : List RoomData) :
    L.foldl (fun out kg => out ++ renderGroup kg.2) init
      = init ++ (L.map (fun kg => renderGroup kg.2)).flatten := by
  induction L generalizing init with
  | nil => simp
  | cons e rest ih =>
    rw [List.foldl_cons, ih]
    simp [List.append_assoc]

theorem dedupSecondPass_eq_flatten (valid : List RoomData) :
    dedupSecondPass valid
      = ((buildGroups valid).map (fun kg => renderGroup kg.2)).flatten := by
  unfold dedupSecondPass
  rw [foldl_append_renderGroup]
  simp

theorem round2_nonneg {q : ℚ} (h : 0 ≤ q) : 0 ≤ round2 q := by
  unfold round2
  have h1 : (0 : ℤ) ≤ round (q * 100) := by
    rw [round_eq]
    exact Int.le_floor.mpr (by push_cast; linarith)
  exact div_nonneg (by exact_mod_cast h1) (by norm_num)

theorem pyPerimeter_dims_some {d : RawDims} {P : ℚ} (h : pyPerimeter d = some P) :
    ∃ lv wv, d.length = some lv ∧ d.width = some wv := by
  unfold pyPerimeter at h
  cases hl : d.length with
  | none => rw [hl] at h; simp at h
  | some lv =>
    cases hw : d.width with
    | none => rw [hl, hw] at h; simp at h
    | some wv => exact ⟨lv, wv, rfl, rfl⟩

/-- Inversion of a successful run of the calculator's `try:` body: the
adjusted perimeter was clamped by `max _ 0`. -/
theorem calcVals_perimeterF_nonneg {room : RoomData} {v : CalcVals}
    (h : calcVals room = some v) : 0 ≤ v.perimeterF := by
  simp only [calcVals, Option.bind_eq_bind, Option.bind_eq_some, Option.pure_def,
    Option.some.injEq] at h
  obtain ⟨dims, -, nm, -, lv, -, wv, -, hv, -, fa, -, pm, -, ht, -, hveq⟩ := h
  rw [← hveq]
  exact le_max_right _ _

theorem floorD_renameRoom (r : RoomData) (k : ℕ) :
    floorD (renameRoom r k) = floorD r := rfl

theorem nameD_renameRoom (r : RoomData) (k : ℕ) :
    nameD (renameRoom r k) = nameD r ++ " #" ++ toString k := rfl

theorem numberFrom_mem (g : List RoomData) :
    ∀ (i j : ℕ) (h : j < g.length),
      renameRoom (g.get ⟨j, h⟩) (i + j) ∈ numberFrom i g := by
  induction g with
  | nil => intro i j h; exact absurd h (by simp)
  | cons r rest ih =>
    intro i j h
    cases j with
    | zero => simp [numberFrom]
    | succ j2 =>
      have h2 : j2 < rest.length := by simpa using h
      have := ih (i + 1) j2 h2
      rw [numberFrom]
      refine List.mem_cons_of_mem _ ?_
      have harith : i + 1 + j2 = i + (j2 + 1) := by omega
      rw [harith] at this
      simpa using this

theorem numberFrom_mem_inv {g : List RoomData} {i : ℕ} {x : RoomData}
    (h : x ∈ numberFrom i g) : ∃ r ∈ g, ∃ k, x = renameRoom r k := by
  induction g generalizing i with
  | nil => simp [numberFrom] at h
  | cons r rest ih =>
    rw [numberFrom, List.mem_cons] at h
    rcases h with h | h
    · exact ⟨r, List.mem_cons_self _ _, i, h⟩
    · obtain ⟨r2, hr2, k, hk⟩ := ih h
      exact ⟨r2, List.mem_cons_of_mem _ hr2, k, hk⟩

theorem renderGroup_mem_inv {g : List RoomData} {x : RoomData}
    (h : x ∈ renderGroup g) :
    (g.length ≤ 1 ∧ x ∈ g) ∨ ∃ r ∈ g, ∃ k, x = renameRoom r k := by
  unfold renderGroup at h
  by_cases hlen : 1 < g.length
  · rw [if_pos hlen] at h
    exact Or.inr (numberFrom_mem_inv h)
  · rw [if_neg hlen] at h
    exact Or.inl ⟨by omega, h⟩

theorem keyOf_of_mem_filter {valid : List RoomData} {k : String} {x : RoomData}
    (h : x ∈ valid.filter (fun r => keyOf r == k)) : keyOf x = k := by
  rw [List.mem_filter] at h
  simpa using h.2

theorem colon_append_inj :
    ∀ (a c b d : List Char), ':' ∉ a → ':' ∉ c →
      a ++ ':' :: b = c ++ ':' :: d → a = c ∧ b = d := by
  intro a
  induction a with
  | nil =>
    intro c b d _ hc h
    cases c with
    | nil => simpa using h
    | cons c0 cr =>
      simp only [List.nil_append, List.cons_append, List.cons.injEq] at h
      exact absurd (h.1 ▸ List.mem_cons_self c0 cr) hc
  | cons a0 ar ih =>
    intro c b d ha hc h
    cases c with
    | nil =>
      simp only [List.cons_append, List.nil_append, List.cons.injEq] at h
      exact absurd (h.1 ▸ List.mem_cons_self a0 ar) ha
    | cons c0 cr =>
      simp only [List.cons_append, List.cons.injEq] at h
      obtain ⟨hac, hrest⟩ := h
      have ha2 : ':' ∉ ar := fun hm => ha (List.mem_cons_of_mem _ hm)
      have hc2 : ':' ∉ cr := fun hm => hc (List.mem_cons_of_mem _ hm)
      obtain ⟨h1, h2⟩ := ih cr b d ha2 hc2 hrest
      exact ⟨by rw [hac, h1], h2⟩

theorem keyOf_eq_key_iff {r : RoomData} {f n : String}
    (hr : ':' ∉ (floorD r).data) (hf : ':' ∉ f.data) :
    (keyOf r = f ++ ":" ++ n) ↔ (floorD r = f ∧ nameD r = n) := by
  constructor
  · intro h
    have hd := congrArg String.data h
    simp only [keyOf, String.data_append] at hd
    have hd2 : (floorD r).data ++ ':' :: (nameD r).data
        = f.data ++ ':' :: n.data := by
      simpa [List.append_assoc] using hd
    obtain ⟨h1, h2⟩ := colon_append_inj _ _ _ _ hr hf hd2
    exact ⟨String.ext h1, String.ext h2⟩
  · rintro ⟨h1, h2⟩
    rw [keyOf, h1, h2]

theorem filter_pair_eq_filter_key {valid : List RoomData} {f n : String}
    (hall : ∀ r ∈ valid, ':' ∉ (floorD r).data) (hf : ':' ∉ f.data) :
    valid.filter (fun r => decide (floorD r = f ∧ nameD r = n))
      = valid.filter (fun r => keyOf r == (f ++ ":" ++ n)) := by
  apply List.filter_congr
  intro x hx
  have hiff : (keyOf x = f ++ ":" ++ n) ↔ (floorD x = f ∧ nameD x = n) :=
    keyOf_eq_key_iff (hall x hx) hf
  by_cases h : floorD x = f ∧ nameD x = n
  · simp [h, hiff.mpr h]
  · have hk : ¬(keyOf x = f ++ ":" ++ n) := fun hk => h (hiff.mp hk)
    simp [h, hk]

/-! ### First-pass lemmas -/

theorem firstPassStep_cases {valid : List RoomData} {r : RoomData}
    {v : List RoomData} (h : firstPassStep valid r = some v) :
    v = valid ∨ v = valid ++ [r] := by
  unfold firstPassStep at h
  cases ht : dedupTiny (r.raw_dimensions.getD {}) with
  | none => rw [ht] at h; exact Option.noConfusion h
  | some tiny =>
    rw [ht] at h
    simp only [Option.some_bind, Option.bind_eq_bind] at h
    cases tiny with
    | true => exact Or.inl (by simpa using h.symm)
    | false =>
      simp only [Bool.false_eq_true, if_false] at h
      by_cases hn : dedupSkipName (nameD r) = true
      · rw [if_pos hn] at h
        exact Or.inl (by simpa using h.symm)
      · rw [if_neg hn] at h
        cases hd : dupScan (floorD r) (nameD r) (r.raw_dimensions.getD {}) valid with
        | none => rw [hd] at h; exact Option.noConfusion h
        | some dup =>
          rw [hd] at h
          simp only [Option.some_bind, Option.bind_eq_bind] at h
          cases dup with
          | true => exact Or.inl (by simpa using h.symm)
          | false => exact Or.inr (by simpa using h.symm)

theorem dedupFirstPassGo_append (acc : List RoomData) (l1 l2 : List RoomData) :
    dedupFirstPassGo acc (l1 ++ l2)
      = (dedupFirstPassGo acc l1).bind (fun m => dedupFirstPassGo m l2) := by
  induction l1 generalizing acc with
  | nil => simp [dedupFirstPassGo]
  | cons r rest ih =>
    simp only [List.cons_append, dedupFirstPassGo]
    cases firstPassStep acc r with
    | none => simp
    | some m => simp [ih]

theorem dedupFirstPassGo_shape {acc l out : List RoomData}
    (h : dedupFirstPassGo acc l = some out) :
    ∃ t, out = acc ++ t ∧ ∀ x ∈ t, x ∈ l := by
  induction l generalizing acc with
  | nil =>
    refine ⟨[], ?_, by simp⟩
    have : acc = out := by simpa [dedupFirstPassGo] using h
    simp [this]
  | cons r rest ih =>
    rw [dedupFirstPassGo] at h
    cases hs : firstPassStep acc r with
    | none => rw [hs] at h; exact Option.noConfusion h
    | some m =>
      rw [hs] at h
      simp only [Option.some_bind, Option.bind_eq_bind] at h
      obtain ⟨t, ht, hsub⟩ := ih h
      rcases firstPassStep_cases hs with h1 | h1
      · subst h1
        exact ⟨t, ht, fun x hx => List.mem_cons_of_mem _ (hsub x hx)⟩
      · subst h1
        refine ⟨r :: t, by simpa [List.append_assoc] using ht, ?_⟩
        intro x hx
        rcases List.mem_cons.mp hx with hx | hx
        · exact hx ▸ List.mem_cons_self _ _
        · exact List.mem_cons_of_mem _ (hsub x hx)

theorem dupScan_of_no_match {floor name : String} {dims : RawDims} :
    ∀ {acc : List RoomData},
      (∀ e ∈ acc, ¬(e.floor = some floor ∧ e.name = some name)) →
      dupScan floor name dims acc = some false := by
  intro acc
  induction acc with
  | nil => intro _; rfl
  | cons e rest ih =>
    intro h
    rw [dupScan, if_neg (h e (List.mem_cons_self _ _))]
    exact ih (fun x hx => h x (List.mem_cons_of_mem _ hx))

theorem firstPassStep_sentinel {acc : List RoomData} {r : RoomData}
    {dims : RawDims} {v : List RoomData}
    (hrd : r.raw_dimensions = some dims)
    (hl : dims.length = some (.num 10)) (hw : dims.width = some (.num 10))
    (hnoise : dedupSkipName (nameD r) = false)
    (hmatch : ∀ e ∈ acc, ¬(e.floor = some (floorD r) ∧ e.name = some (nameD r)))
    (h : firstPassStep acc r = some v) :
    v = acc ++ [r] := by
  have htiny : ∀ t, dedupTiny dims = some t → t = false := by
    intro t ht
    unfold dedupTiny at ht
    cases ha : ((dims.area.getD (.num 0)).toFloat) with
    | none =>
      rw [pyLtQ] at ht
      rw [ha] at ht
      simp at ht
    | some a =>
      rw [pyLtQ] at ht
      rw [ha] at ht
      simp only [Option.some_bind, Option.bind_eq_bind, Option.pure_def] at ht
      by_cases hlt : a < 1
      · rw [if_pos (by simpa using hlt)] at ht
        rw [pyMul, hl, hw] at ht
        simp only [Option.getD_some, PyVal.toFloat, Option.some_bind,
          Option.bind_eq_bind, Option.pure_def, Option.some.injEq] at ht
        have hno : ¬((10 : ℚ) * 10 < 1) := by norm_num
        simp only [hno, decide_eq_false_iff_not, decide_eq_true_eq,
          Option.some.injEq] at ht
        exact ht.symm
      · rw [if_neg (by simpa using hlt)] at ht
        simpa using ht.symm
  unfold firstPassStep at h
  rw [hrd] at h
  simp only [Option.getD_some] at h
  cases ht : dedupTiny dims with
  | none => rw [ht] at h; exact Option.noConfusion h
  | some t =>
    have ht2 := htiny t ht
    subst ht2
    rw [ht] at h
    simp only [Option.some_bind, Option.bind_eq_bind, Bool.false_eq_true,
      if_false] at h
    rw [if_neg (by simp [hnoise])] at h
    rw [dupScan_of_no_match hmatch] at h
    simpa using h.symm

/-! ## Claim theorems -/

/-- C3, counterexample: the claim says every returned room satisfies
`floor_perimeter_lf == ceiling_perimeter_lf`, "including rooms produced
by any fallback path"; but the engine run on an empty intermediate
returns the transformer's canned fallback structure, whose single room
has `floor_perimeter_lf = 43.48` and `ceiling_perimeter_lf = 58.83`. -/
theorem C3_fallback_room_unequal_perimeters :
    ∃ loc ∈ process_to_final_format { rooms := [] },
      ∃ r ∈ loc.rooms,
        r.measurements.floor_perimeter_lf ≠ r.measurements.ceiling_perimeter_lf := by
  have h : process_to_final_format { rooms := [] } = fallbackStructure := rfl
  rw [h]
  refine ⟨_, List.mem_cons_self _ _, _, List.mem_cons_self _ _, ?_⟩
  norm_num

/-- C3, amended: every room produced by `calculate_room_measurements`
(normal path and its own per-room fallback alike) has equal floor and
ceiling perimeters; only the transformer-level canned fallback room
violates the equality. -/
theorem C3_calculator_perimeters_equal (room : RoomData) :
    (calculate_room_measurements room).measurements.floor_perimeter_lf
      = (calculate_room_measurements room).measurements.ceiling_perimeter_lf := by
  unfold calculate_room_measurements
  cases calcVals room <;> rfl

/-- C9: `calculate_room_measurements` is total (it never raises: the
embedding returns a value for every input), and whenever its `try:` body
raises (`calcVals room = none`) it returns exactly the canned fallback
measurements tagged with the input room's original name. -/
theorem C9_exception_returns_fallback (room : RoomData) (nm : String)
    (hnm : room.name = some nm) (hfail : calcVals room = none) :
    calculate_room_measurements room =
      { name := nm,
        measurements :=
          { height := 8, wall_area_sqft := 320, ceiling_area_sqft := 100,
            floor_area_sqft := 100, walls_and_ceiling_area_sqft := 420,
            flooring_area_sy := 1111/100, ceiling_perimeter_lf := 40,
            floor_perimeter_lf := 40, openings := [] } } := by
  unfold calculate_room_measurements
  rw [hfail]
  unfold fallbackRoomMeasurements
  rw [hnm]
  rfl

/-- Witness for C9: a room whose `raw_dimensions` key is missing makes
the body raise `KeyError`, and the fallback is tagged with its name. -/
theorem C9_exception_returns_fallback_witness :
    calcVals { name := some "Attic" } = none ∧
      calculate_room_measurements { name := some "Attic" } =
        { name := "Attic",
          measurements :=
            { height := 8, wall_area_sqft := 320, ceiling_area_sqft := 100,
              floor_area_sqft := 100, walls_and_ceiling_area_sqft := 420,
              flooring_area_sy := 1111/100, ceiling_perimeter_lf := 40,
              floor_perimeter_lf := 40, openings := [] } } :=
  ⟨rfl, C9_exception_returns_fallback { name := some "Attic" } "Attic" rfl rfl⟩


/-- C6: the calculator clamps the adjusted perimeter with `max(_, 0)`
(so every returned perimeter is nonnegative), but does not clamp
`wall_area_sqft`: on `overOpenedRoom` (opening area 80 > perimeter x
height 32) the returned wall area is -48 while both perimeters are 0. -/
theorem C6_perimeter_clamped_wall_area_not :
    (∀ room : RoomData,
        0 ≤ (calculate_room_measurements room).measurements.floor_perimeter_lf ∧
          0 ≤ (calculate_room_measurements room).measurements.ceiling_perimeter_lf) ∧
      (calculate_room_measurements overOpenedRoom).measurements.wall_area_sqft < 0 ∧
      (calculate_room_measurements overOpenedRoom).measurements.wall_area_sqft = -48 ∧
      (calculate_room_measurements overOpenedRoom).measurements.floor_perimeter_lf = 0 ∧
      (calculate_room_measurements overOpenedRoom).measurements.ceiling_perimeter_lf = 0 := by
  have hw : (calculate_room_measurements overOpenedRoom).measurements.wall_area_sqft
      = round2 (2 * (1 + 1) * 8 - (0 + 10 * 8)) := rfl
  have hp : (calculate_room_measurements overOpenedRoom).measurements.floor_perimeter_lf
      = round2 (max (2 * (1 + 1) - 10) 0) := rfl
  have hp2 : (calculate_room_measurements overOpenedRoom).measurements.ceiling_perimeter_lf
      = round2 (max (2 * (1 + 1) - 10) 0) := rfl
  have hmax : max ((2 : ℚ) * (1 + 1) - 10) 0 = 0 := by norm_num
  refine ⟨fun room => ?_, ?_, ?_, ?_, ?_⟩
  · unfold calculate_room_measurements
    cases h : calcVals room with
    | none =>
      exact ⟨by norm_num [fallbackRoomMeasurements],
             by norm_num [fallbackRoomMeasurements]⟩
    | some v =>
      have := calcVals_perimeterF_nonneg h
      exact ⟨round2_nonneg this, round2_nonneg this⟩
  · rw [hw]; norm_num [round2, round_eq]
  · rw [hw]; norm_num [round2, round_eq]
  · rw [hp, hmax]; norm_num [round2, round_eq]
  · rw [hp2, hmax]; norm_num [round2, round_eq]

/-- C5: for a room whose dimensions resolve to perimeter `P` (directly
supplied, or `2 * (length + width)` — this is exactly `pyPerimeter`),
height `H`, and exactly one `open_wall` opening of width `W`, the
calculator returns `wall_area_sqft = round(P*H - W*H, 2)` and
`floor_perimeter_lf = ceiling_perimeter_lf = round(max(P-W, 0), 2)`. -/
theorem C5_open_wall_math (room : RoomData) (dims : RawDims) (nm : String)
    (P H W oh FA : ℚ) (o : OpeningData)
    (hrd : room.raw_dimensions = some dims)
    (hnm : room.name = some nm)
    (hop : room.openings = some [o])
    (hot : o.otype = some "open_wall")
    (how : o.owidth = some (.num W))
    (hoh : (o.oheight.getD (.num 8)).toFloat = some oh)
    (hh : dims.height = some (.num H))
    (hP : pyPerimeter dims = some P)
    (hFA : pyFloorArea dims = some FA) :
    (calculate_room_measurements room).measurements.wall_area_sqft
        = round2 (P * H - W * H) ∧
      (calculate_room_measurements room).measurements.floor_perimeter_lf
        = round2 (max (P - W) 0) ∧
      (calculate_room_measurements room).measurements.ceiling_perimeter_lf
        = round2 (max (P - W) 0) := by
  obtain ⟨lv, wv, hl, hw⟩ := pyPerimeter_dims_some hP
  have hpo : processOpening H o =
      some { areaSub := W * H, perimSub := W,
             emitted := { otype := "open_wall",
                          size := fmtQ W ++ "\x27 wide opening" } } := by
    simp only [processOpening, hot, how, Option.getD_some, knownOpeningType,
      openingDefaultWidth, openingDefaultHeight]
    simp only [String.reduceEq, if_true, if_false, Bool.or_self, Bool.or_true,
      Bool.or_false, ite_true, ite_false, PyVal.toFloat, Option.some_bind,
      Option.bind_eq_bind]
    cases hx : o.oheight.getD (PyVal.num 8) with
    | num q => simp [hx]
    | pynone => rw [hx] at hoh; simp [PyVal.toFloat] at hoh
    | nonNum t => rw [hx] at hoh; simp [PyVal.toFloat] at hoh
  have hfold : foldOpenings H P [o] =
      { totalArea := 0 + W * H, adjPerimeter := P - W,
        processed := [{ otype := "open_wall",
                        size := fmtQ W ++ "\x27 wide opening" }] } := by
    simp only [foldOpenings, List.foldl_cons, List.foldl_nil, openingsStep, hpo,
      List.nil_append]
  have hcv : calcVals room =
      some { roomName := nm, height := H, floorArea := FA,
             wallArea := P * H - (0 + W * H),
             perimeterF := max (P - W) 0,
             processed := [{ otype := "open_wall",
                             size := fmtQ W ++ "\x27 wide opening" }] } := by
    simp only [calcVals, hrd, hnm, hop, hl, hw, hh, hP, hFA, PyVal.toFloat,
      Option.bind_eq_bind, Option.some_bind, Option.getD_some, hfold,
      Option.pure_def]
  unfold calculate_room_measurements
  rw [hcv]
  unfold assembleRoom
  refine ⟨?_, rfl, rfl⟩
  rw [zero_add]


/-- Witness for C5: perimeter 14, height 10, open wall width 4. -/
theorem C5_open_wall_math_witness :
    (calculate_room_measurements openWallRoom).measurements.wall_area_sqft
        = round2 (14 * 10 - 4 * 10) ∧
      (calculate_room_measurements openWallRoom).measurements.floor_perimeter_lf
        = round2 (max (14 - 4) 0) ∧
      (calculate_room_measurements openWallRoom).measurements.ceiling_perimeter_lf
        = round2 (max (14 - 4) 0) :=
  C5_open_wall_math openWallRoom
    { length := some (.num 3), width := some (.num 4), height := some (.num 10) }
    "Den" 14 10 4 8 12 { otype := some "open_wall", owidth := some (.num 4) }
    rfl rfl rfl rfl rfl rfl rfl
    (by norm_num [pyPerimeter, PyVal.toFloat, PyVal.truthy])
    (by norm_num [pyFloorArea, pyMul, PyVal.toFloat, PyVal.truthy])

/-- Skipping a bad opening leaves the openings fold unchanged. -/
theorem foldOpenings_skip {H : ℚ} {bad : OpeningData}
    (hbad : processOpening H bad = none) (P : ℚ) (pre post : List OpeningData) :
    foldOpenings H P (pre ++ bad :: post) = foldOpenings H P (pre ++ post) := by
  unfold foldOpenings
  rw [List.foldl_append, List.foldl_append, List.foldl_cons]
  have hstep : ∀ acc, openingsStep H acc bad = acc := by
    intro acc; unfold openingsStep; rw [hbad]
  rw [hstep]

/-- C10: an exception while processing one opening (its `float()` call
raising, i.e. `processOpening` yielding `none`) only skips that opening:
the calculator's result is exactly the result for the same room with
that opening removed, both on the `try:`-body level (`calcVals`) and for
the full function. -/
theorem C10_bad_opening_skipped (room : RoomData) (dims : RawDims) (hv : PyVal)
    (H : ℚ) (bad : OpeningData) (pre post : List OpeningData)
    (hrd : room.raw_dimensions = some dims)
    (hh : dims.height = some hv)
    (hf : hv.toFloat = some H)
    (hop : room.openings = some (pre ++ bad :: post))
    (hbad : processOpening H bad = none) :
    calcVals room = calcVals { room with openings := some (pre ++ post) } ∧
      calculate_room_measurements room
        = calculate_room_measurements { room with openings := some (pre ++ post) } := by
  have hmain : calcVals room = calcVals { room with openings := some (pre ++ post) } := by
    obtain ⟨rf, rn, rd, ro, rsc⟩ := room
    simp only at hrd hop
    subst hrd hop
    simp only [calcVals, hh, hf, Option.bind_eq_bind, Option.some_bind,
      Option.getD_some, Option.pure_def, foldOpenings_skip hbad]
  refine ⟨hmain, ?_⟩
  unfold calculate_room_measurements
  rw [hmain]


/-- Witness for C10. -/
theorem C10_bad_opening_skipped_witness :
    calcVals roomWithBadOpening =
        calcVals { roomWithBadOpening with
                     openings := some ([{ otype := some "door" }] ++
                       [{ otype := some "window", owidth := some (.num 2),
                          oheight := some (.num 3) }]) } ∧
      calculate_room_measurements roomWithBadOpening
        = calculate_room_measurements
            { roomWithBadOpening with
                openings := some ([{ otype := some "door" }] ++
                  [{ otype := some "window", owidth := some (.num 2),
                     oheight := some (.num 3) }]) } :=
  C10_bad_opening_skipped roomWithBadOpening
    { length := some (.num 3), width := some (.num 4), height := some (.num 10) }
    (.num 10) 10 { otype := some "door", owidth := some (.nonNum true) }
    [{ otype := some "door" }]
    [{ otype := some "window", owidth := some (.num 2), oheight := some (.num 3) }]
    rfl rfl rfl rfl rfl

/-- C2: for every intermediate input the engine returns a non-empty
location list containing at least one room (it is total, so it never
raises), and whenever the transformation yields no rooms — the room list
is empty — or its `try:` body raises (`transformCore = none`), the
result is exactly the canned `1st Floor`/`Living Room` structure. -/
theorem C2_engine_never_empty (d : Intermediate) :
    (process_to_final_format d ≠ [] ∧
        ∃ loc ∈ process_to_final_format d, loc.rooms ≠ []) ∧
      (d.rooms = [] ∨ transformCore d = none →
        process_to_final_format d = fallbackStructure) := by
  constructor
  · unfold process_to_final_format
    by_cases hc : (transform_to_final_structure d).isEmpty
        || (transform_to_final_structure d).all (fun loc => loc.rooms.isEmpty)
    · rw [if_pos hc]
      exact ⟨by decide, by decide⟩
    · rw [if_neg hc]
      rw [Bool.or_eq_true, not_or] at hc
      obtain ⟨h1, h2⟩ := hc
      refine ⟨by simpa [List.isEmpty_iff] using h1, ?_⟩
      rw [Bool.not_eq_true, List.all_eq_false] at h2
      obtain ⟨loc, hmem, hne⟩ := h2
      exact ⟨loc, hmem, by simpa [List.isEmpty_iff] using hne⟩
  · rintro (hr | hn)
    · obtain ⟨rs⟩ := d
      simp only at hr
      subst hr
      rfl
    · unfold process_to_final_format transform_to_final_structure
      rw [hn]
      rfl

/-- Witness for C2: the empty intermediate produces the canned
structure. -/
theorem C2_engine_never_empty_witness :
    process_to_final_format { rooms := [] } = fallbackStructure :=
  (C2_engine_never_empty { rooms := [] }).2 (Or.inl rfl)

/-- C4, counterexample: the JSON extractor has no fallback room set: on
the successfully parsed input `{}` (an object with no `"measurements"`
key) it returns an empty room list, so "extraction never returns an
empty room list" fails. -/
theorem C4_json_extractor_returns_empty :
    jsonExtract (some (.obj [])) = [] := rfl

/-- C4 (amended): the CSV-table extractor (which also serves
`pdf_table`) and the image-OCR extractor return their hard-coded
non-empty fallback room sets when the line scan finds zero valid rows;
the JSON extractor instead has no fallback and returns an empty list
(here: when `json.loads` raises). -/
theorem C4_extractor_fallbacks :
    csvExtractPost [] = some csvFallbackRooms ∧ csvFallbackRooms ≠ [] ∧
      ocrExtractPost [] = ocrFallbackRooms ∧ ocrFallbackRooms ≠ [] ∧
      jsonExtract none = [] :=
  ⟨rfl, by simp [csvFallbackRooms], rfl, by simp [ocrFallbackRooms], rfl⟩

/-- C8: whenever the classifier capability is unavailable (the import
fails or the service is in mock mode), its invocation raises, or the
parsed response list has a length different from the candidate list,
batch classification returns `false` for every candidate. -/
theorem C8_classifier_conservative (env : AIEnv) (candidates : List CandidateData)
    (h : env.importOk = false ∨ env.mock_mode = true ∨ env.response = .error () ∨
      ∃ l, aiParsedResult env = some l ∧ l.length ≠ candidates.length) :
    batch_ai_room_classification env candidates
      = List.replicate candidates.length false := by
  cases hc : candidates.isEmpty
  case true =>
    rw [List.isEmpty_iff] at hc
    subst hc
    rfl
  case false =>
    unfold batch_ai_room_classification
    rw [hc]
    simp only [Bool.false_eq_true, if_false]
    rcases h with himp | hmock | herr | ⟨l, hl, hne⟩
    · rw [himp]
      rfl
    · rw [hmock]
      cases env.importOk <;> rfl
    · rw [herr]
      cases env.importOk <;> cases hm : env.mock_mode <;> rfl
    · by_cases him : (!env.importOk || env.mock_mode) = true
      · rw [aiParsedResult, if_pos him] at hl
        exact absurd hl (by simp)
      · rw [aiParsedResult, if_neg him] at hl
        rw [Bool.or_eq_true, not_or, Bool.not_eq_true] at him
        obtain ⟨himp, hmock⟩ := him
        have himp2 : env.importOk = true := by
          revert himp; cases env.importOk <;> simp
        have hmock2 : env.mock_mode = false := by
          revert hmock; cases env.mock_mode <;> simp
        rw [himp2, hmock2]
        simp only [Bool.not_true, Bool.false_eq_true, if_false]
        cases hr : env.response with
        | error e => simp only [hr] at hl; exact Option.noConfusion hl
        | ok result =>
          simp only [hr] at hl
          cases hsi : strFindIdx (pyStrip result).data '[' with
          | none => simp only [hsi] at hl; exact Option.noConfusion hl
          | some si =>
            simp only [hsi] at hl
            cases hei : strRFindIdx (pyStrip result).data ']' with
            | none => simp only [hei] at hl; exact Option.noConfusion hl
            | some ei =>
              simp only [hsi, hei] at hl ⊢
              cases hj : env.jsonLoads
                  (String.mk (((pyStrip result).data.take (ei + 1)).drop si)) with
              | error e => simp only [hj] at hl; exact Option.noConfusion hl
              | ok l2 =>
                simp only [hj, Option.some.injEq] at hl
                subst hl
                exact if_neg hne


/-- Witness for C8: one ambiguous candidate under a mock-mode service
resolves to `false`. -/
theorem C8_classifier_conservative_witness :
    batch_ai_room_classification mockModeEnv [{ name := "Open Area" }]
      = List.replicate 1 false :=
  C8_classifier_conservative mockModeEnv [{ name := "Open Area" }]
    (Or.inr (Or.inl rfl))


/-- C1, counterexample: the 10x10x8 sentinel test runs only inside the
scan over already-kept rows with the same `(floor, name)`, so a sentinel
row whose `(floor, name)` is unique passes deduplication — it is present
in the output, contradicting "is absent from its output ... regardless
of whether any other row with the same (floor, name) exists". -/
theorem C1_lone_sentinel_survives :
    sentinelDims (loneSentinelRoom.raw_dimensions.getD {}) = true ∧
      deduplicate_and_filter_rooms [loneSentinelRoom] = some [loneSentinelRoom] :=
  ⟨rfl, rfl⟩

/-- C1 (amended): a row with raw dimensions exactly `(10, 10, 8)` is
dropped only when an already-kept row shares its `(floor, name)`; a
sentinel row that passes the noise-name filter and whose `floor:name`
key occurs on no other row survives deduplication and is in the
output. -/
theorem C1_sentinel_survives_when_key_unique
    (pre post : List RoomData) (r : RoomData) (dims : RawDims)
    (out : List RoomData)
    (hrd : r.raw_dimensions = some dims)
    (hl : dims.length = some (.num 10))
    (hw : dims.width = some (.num 10))
    (hh : dims.height = some (.num 8))
    (hnoise : dedupSkipName (nameD r) = false)
    (huniq : ∀ x ∈ pre ++ post, keyOf x ≠ keyOf r)
    (hout : deduplicate_and_filter_rooms (pre ++ r :: post) = some out) :
    r ∈ out := by
  have hne : (pre ++ r :: post).isEmpty = false := by simp
  unfold deduplicate_and_filter_rooms at hout
  rw [hne] at hout
  simp only [Bool.false_eq_true, if_false] at hout
  cases hfp : dedupFirstPass (pre ++ r :: post) with
  | none =>
    rw [hfp] at hout
    exact Option.noConfusion hout
  | some valid =>
    rw [hfp] at hout
    simp only [Option.some_bind, Option.bind_eq_bind, Option.pure_def,
      Option.some.injEq] at hout
    unfold dedupFirstPass at hfp
    rw [dedupFirstPassGo_append] at hfp
    cases hpre : dedupFirstPassGo [] pre with
    | none => rw [hpre] at hfp; exact Option.noConfusion hfp
    | some acc1 =>
      rw [hpre] at hfp
      simp only [Option.some_bind, Option.bind_eq_bind] at hfp
      rw [dedupFirstPassGo] at hfp
      cases hstep : firstPassStep acc1 r with
      | none => rw [hstep] at hfp; exact Option.noConfusion hfp
      | some acc2 =>
        rw [hstep] at hfp
        simp only [Option.some_bind, Option.bind_eq_bind] at hfp
        obtain ⟨t1, hacc1, hsub1⟩ := dedupFirstPassGo_shape hpre
        have hacc1m : ∀ x ∈ acc1, x ∈ pre := by
          intro x hx
          rw [hacc1] at hx
          exact hsub1 x (by simpa using hx)
        have hmatch : ∀ e ∈ acc1,
            ¬(e.floor = some (floorD r) ∧ e.name = some (nameD r)) := by
          intro e he hcon
          apply huniq e (List.mem_append_left _ (hacc1m e he))
          unfold keyOf floorD nameD
          rw [hcon.1, hcon.2]
          simp [floorD, nameD]
        have hacc2 : acc2 = acc1 ++ [r] :=
          firstPassStep_sentinel hrd hl hw hnoise hmatch hstep
        subst hacc2
        obtain ⟨t2, hvalid, hsub2⟩ := dedupFirstPassGo_shape hfp
        have hfilter : valid.filter (fun x => keyOf x == keyOf r) = [r] := by
          rw [hvalid, List.filter_append, List.filter_append]
          have h1 : acc1.filter (fun x => keyOf x == keyOf r) = [] := by
            rw [List.filter_eq_nil_iff]
            intro a ha
            simpa using huniq a (List.mem_append_left _ (hacc1m a ha))
          have h3 : t2.filter (fun x => keyOf x == keyOf r) = [] := by
            rw [List.filter_eq_nil_iff]
            intro a ha
            simpa using huniq a (List.mem_append_right _ (hsub2 a ha))
          rw [h1, h3]
          simp
        subst hout
        rw [dedupSecondPass_eq_flatten, List.mem_flatten]
        have hlk : lookupG (buildGroups valid) (keyOf r) = [r] := by
          rw [buildGroups_lookup, hfilter]
        have hmem : (keyOf r, [r]) ∈ buildGroups valid := by
          have := mem_of_lookupG_ne_nil (buildGroups valid) (keyOf r)
            (by rw [hlk]; simp)
          rwa [hlk] at this
        refine ⟨renderGroup [r], ?_, ?_⟩
        · exact List.mem_map_of_mem (fun kg => renderGroup kg.2) hmem
        · simp [renderGroup]

/-- Witness for C1 (amended): the lone sentinel room survives. -/
theorem C1_sentinel_survives_when_key_unique_witness :
    loneSentinelRoom ∈ [loneSentinelRoom] :=
  C1_sentinel_survives_when_key_unique [] [] loneSentinelRoom
    { length := some (.num 10), width := some (.num 10), height := some (.num 8),
      area := some (.num 100), perimeter := some .pynone }
    [loneSentinelRoom] rfl rfl rfl rfl rfl (by simp) rfl

theorem lookupG_of_mem_nodup {gs : List (String × List RoomData)} {k : String}
    {g : List RoomData} (hnd : (gs.map Prod.fst).Nodup) (hm : (k, g) ∈ gs) :
    lookupG gs k = g := by
  induction gs with
  | nil => simp at hm
  | cons e rest ih =>
    obtain ⟨ke, ge⟩ := e
    simp only [List.map_cons, List.nodup_cons] at hnd
    rcases List.mem_cons.mp hm with h | h
    · injection h with h1 h2
      subst h1
      subst h2
      rw [lookupG, if_pos rfl]
    · by_cases hke : ke = k
      · exfalso
        apply hnd.1
        subst hke
        exact List.mem_map_of_mem Prod.fst h
      · rw [lookupG, if_neg hke]
        exact ih hnd.2 h

theorem pairwise_of_length_le_one {l : List RoomData}
    {P : RoomData → RoomData → Prop} (h : l.length ≤ 1) : l.Pairwise P := by
  rcases l with _ | ⟨x, _ | ⟨y, rest⟩⟩
  · exact List.Pairwise.nil
  · simp
  · simp at h

/-- C7: after deduplication, and for inputs whose floor strings contain
no colon (true at every call site — the grouping key is the string
`floor ++ ":" ++ name`): the output is the second pass over the
surviving rooms; every group of two or more survivors sharing
`(floor, name)` is emitted with member `j` renamed `"<name> #(j+1)"`
(1-based, input order); every singleton group keeps its room unchanged;
and any two distinct output rooms sharing floor and name carry numbered
names (of the shape `base ++ " #" ++ k`). -/
theorem C7_duplicate_numbering
    (rooms valid out : List RoomData)
    (hfp : dedupFirstPass rooms = some valid)
    (hout : deduplicate_and_filter_rooms rooms = some out)
    (hcolon : ∀ r ∈ valid, ':' ∉ (floorD r).data) :
    out = dedupSecondPass valid ∧
    (∀ f n g, g = valid.filter (fun r => decide (floorD r = f ∧ nameD r = n)) →
      (2 ≤ g.length → ∀ j (hj : j < g.length),
          renameRoom (g.get ⟨j, hj⟩) (j + 1) ∈ out) ∧
      (∀ r, g = [r] → r ∈ out)) ∧
    out.Pairwise (fun a b =>
      (floorD a = floorD b ∧ nameD a = nameD b) →
        ∃ (base : String) (k : ℕ), nameD a = base ++ " #" ++ toString k) := by
  have h1 : out = dedupSecondPass valid := by
    unfold deduplicate_and_filter_rooms at hout
    by_cases hre : rooms.isEmpty = true
    · have hrooms : rooms = [] := List.isEmpty_iff.mp hre
      subst hrooms
      have hv : valid = [] := by
        have := hfp.symm
        simpa [dedupFirstPass, dedupFirstPassGo] using this
      rw [if_pos hre] at hout
      simp only [Option.some.injEq] at hout
      rw [← hout, hv]
      rfl
    · rw [if_neg hre, hfp] at hout
      simpa using hout.symm
  have hgroupmem : ∀ (f n : String) (g : List RoomData), g ≠ [] →
      g = valid.filter (fun r => decide (floorD r = f ∧ nameD r = n)) →
      (f ++ ":" ++ n, g) ∈ buildGroups valid := by
    intro f n g hgne hg
    obtain ⟨r0, hr0⟩ := List.exists_mem_of_ne_nil g hgne
    have hr0f := hr0
    rw [hg, List.mem_filter] at hr0f
    obtain ⟨hr0v, hr0p⟩ := hr0f
    obtain ⟨hrf, _⟩ := of_decide_eq_true hr0p
    have hfcolon : ':' ∉ f.data := hrf ▸ hcolon r0 hr0v
    have hkey : g = valid.filter (fun r => keyOf r == (f ++ ":" ++ n)) := by
      rw [hg, filter_pair_eq_filter_key hcolon hfcolon]
    have hlk : lookupG (buildGroups valid) (f ++ ":" ++ n) = g := by
      rw [buildGroups_lookup, ← hkey]
    have := mem_of_lookupG_ne_nil (buildGroups valid)
      (f ++ ":" ++ n) (by rw [hlk]; exact hgne)
    rwa [hlk] at this
  refine ⟨h1, ?_, ?_⟩
  · intro f n g hg
    constructor
    · intro hlen j hj
      have hgne : g ≠ [] := by
        intro hgn
        rw [hgn] at hlen
        simp at hlen
      have hmem := hgroupmem f n g hgne hg
      rw [h1, dedupSecondPass_eq_flatten, List.mem_flatten]
      refine ⟨renderGroup g, List.mem_map_of_mem _ hmem, ?_⟩
      rw [renderGroup, if_pos (by omega)]
      have := numberFrom_mem g 1 j hj
      rwa [Nat.add_comm 1 j] at this
    · intro r hr
      have hgne : g ≠ [] := by rw [hr]; simp
      have hmem := hgroupmem f n g hgne hg
      rw [h1, dedupSecondPass_eq_flatten, List.mem_flatten]
      refine ⟨renderGroup g, List.mem_map_of_mem _ hmem, ?_⟩
      rw [hr, renderGroup]
      simp
  · rw [h1, dedupSecondPass_eq_flatten, List.pairwise_flatten]
    have hnd := buildGroups_keys_nodup valid
    have hchar : ∀ kg ∈ buildGroups valid, ∀ x ∈ renderGroup kg.2,
        (∃ (base : String) (k2 : ℕ), nameD x = base ++ " #" ++ toString k2) ∨
          (x ∈ kg.2 ∧ keyOf x = kg.1) := by
      intro kg hkg x hx
      rcases renderGroup_mem_inv hx with ⟨_, hxg⟩ | ⟨r2, hr2, k2, hk2⟩
      · right
        refine ⟨hxg, ?_⟩
        have hglk : lookupG (buildGroups valid) kg.1 = kg.2 :=
          lookupG_of_mem_nodup hnd (by rwa [Prod.mk.eta])
        rw [buildGroups_lookup] at hglk
        exact keyOf_of_mem_filter (hglk ▸ hxg)
      · left
        exact ⟨nameD r2, k2, by rw [hk2, nameD_renameRoom]⟩
    constructor
    · intro chunk hchunk
      rw [List.mem_map] at hchunk
      obtain ⟨kg, hkg, hrender⟩ := hchunk
      subst hrender
      by_cases hlen : 1 < kg.2.length
      · rw [renderGroup, if_pos hlen]
        apply List.pairwise_of_forall_mem_list
        intro a ha b _ hfn
        obtain ⟨r2, _, k2, hk2⟩ := numberFrom_mem_inv ha
        exact ⟨nameD r2, k2, by rw [hk2, nameD_renameRoom]⟩
      · rw [renderGroup, if_neg hlen]
        exact pairwise_of_length_le_one (by omega)
    · rw [List.pairwise_map]
      have hkeys : (buildGroups valid).Pairwise (fun e1 e2 => e1.1 ≠ e2.1) :=
        List.pairwise_map.mp hnd
      refine List.Pairwise.imp_of_mem ?_ hkeys
      intro e1 e2 h1m h2m hne x hx y hy hfn
      rcases hchar e1 h1m x hx with hnum | ⟨_, hkx⟩
      · exact hnum
      · rcases hchar e2 h2m y hy with hnum | ⟨_, hky⟩
        · obtain ⟨base, k2, hb⟩ := hnum
          exact ⟨base, k2, by rw [hfn.2, hb]⟩
        · exfalso
          apply hne
          rw [← hkx, ← hky, keyOf, keyOf, hfn.1, hfn.2]


/-- Witness for C7: two same-key bedrooms get numbered `#1`/`#2` in
input order and the singleton kitchen keeps its name. -/
theorem C7_duplicate_numbering_witness :
    renameRoom bedRoomA 1 ∈
        [renameRoom bedRoomA 1, renameRoom bedRoomB 2, kitchenRoomW] ∧
      renameRoom bedRoomB 2 ∈
        [renameRoom bedRoomA 1, renameRoom bedRoomB 2, kitchenRoomW] ∧
      kitchenRoomW ∈
        [renameRoom bedRoomA 1, renameRoom bedRoomB 2, kitchenRoomW] := by
  have hnear : nearIdentical (bedRoomB.raw_dimensions.getD {})
      (bedRoomA.raw_dimensions.getD {}) = some false := by
    norm_num [nearIdentical, pyAbsDiffLt, PyVal.toFloat, bedRoomA, bedRoomB]
  have hscan : dupScan (floorD bedRoomB) (nameD bedRoomB)
      (bedRoomB.raw_dimensions.getD {}) [bedRoomA] = some false := by
    rw [dupScan, if_pos ⟨rfl, rfl⟩, hnear]
    simp only [Option.some_bind, Option.bind_eq_bind, Bool.false_eq_true,
      if_false]
    have hsent : sentinelDims (bedRoomB.raw_dimensions.getD {}) = false := rfl
    rw [hsent]
    simp only [Bool.false_eq_true, if_false]
    rfl
  have hstep2 : firstPassStep [bedRoomA] bedRoomB = some [bedRoomA, bedRoomB] := by
    have htiny : dedupTiny (bedRoomB.raw_dimensions.getD {}) = some false := rfl
    have hskip : dedupSkipName (nameD bedRoomB) = false := rfl
    rw [firstPassStep, htiny]
    simp only [Option.some_bind, Option.bind_eq_bind, Bool.false_eq_true,
      if_false, hskip, hscan]
    rfl
  have hfp : dedupFirstPass [bedRoomA, bedRoomB, kitchenRoomW]
      = some [bedRoomA, bedRoomB, kitchenRoomW] := by
    have hstep1 : firstPassStep [] bedRoomA = some [bedRoomA] := rfl
    have hstep3 : firstPassStep [bedRoomA, bedRoomB] kitchenRoomW
        = some [bedRoomA, bedRoomB, kitchenRoomW] := rfl
    rw [dedupFirstPass, dedupFirstPassGo, hstep1]
    simp only [Option.some_bind, Option.bind_eq_bind]
    rw [dedupFirstPassGo, hstep2]
    simp only [Option.some_bind, Option.bind_eq_bind]
    rw [dedupFirstPassGo, hstep3]
    rfl
  have hsp : dedupSecondPass [bedRoomA, bedRoomB, kitchenRoomW]
      = [renameRoom bedRoomA 1, renameRoom bedRoomB 2, kitchenRoomW] := rfl
  have hout : deduplicate_and_filter_rooms [bedRoomA, bedRoomB, kitchenRoomW]
      = some [renameRoom bedRoomA 1, renameRoom bedRoomB 2, kitchenRoomW] := by
    rw [deduplicate_and_filter_rooms]
    simp only [List.isEmpty_cons, Bool.false_eq_true, if_false]
    rw [hfp]
    simp only [Option.some_bind, Option.bind_eq_bind, Option.pure_def, hsp]
  have hcolon : ∀ r ∈ [bedRoomA, bedRoomB, kitchenRoomW],
      ':' ∉ (floorD r).data := by decide
  have h := C7_duplicate_numbering [bedRoomA, bedRoomB, kitchenRoomW]
    [bedRoomA, bedRoomB, kitchenRoomW]
    [renameRoom bedRoomA 1, renameRoom bedRoomB 2, kitchenRoomW]
    hfp hout hcolon
  obtain ⟨-, hmem, -⟩ := h
  have hbed := hmem "1st Floor" "Bedroom" [bedRoomA, bedRoomB] rfl
  have hkit := hmem "1st Floor" "Kitchen" [kitchenRoomW] rfl
  refine ⟨?_, ?_, hkit.2 kitchenRoomW rfl⟩
  · exact hbed.1 (by norm_num) 0 (by norm_num)
  · exact hbed.1 (by norm_num) 1 (by norm_num)

end MJEstimator
